import Mathlib

/-!
Verification of the icon-set generator `scripts/generate_icon.py`.

The script is a straight-line pipeline: it writes a fixed SVG to
`/tmp/enclave_icon.svg`, runs the external converter `rsvg-convert` once for
each of the ten fixed `(size, scale)` pairs, and finally serializes a
`Contents.json` manifest describing which renditions were produced.

The embedding below models the program as pure functions of the converter's
behaviour: a `Converter` assigns to every `(size, scale)` pair the outcome of
its single invocation attempt (exit status 0, non-zero exit status, or
`FileNotFoundError` when the tool is absent).  The observable behaviour of a
run — the files written, the console messages, the subprocess invocations —
is collected in order in `mainTrace`, and the manifest construction of the
script's second half is `contentsImages` / `renderContents`.
-/

namespace GenerateIcon

/-- Outcome of one attempted `subprocess.run` of the converter for one spec:
exit status `0` (`ok`), a non-zero exit status (`fail`), or the
`FileNotFoundError` raised when the tool is not installed (`notFound`). -/
inductive ConvResult
  | ok
  | fail
  | notFound
deriving DecidableEq, Repr

/-- `ICON_DIR` constant of the script: the target icon-set directory. -/
def ICON_DIR : String :=
  "/Volumes/Code/source/repos/enclave/Enclave/Assets.xcassets/AppIcon.appiconset"

/-- The fixed working set `SIZES` of the script: ten `(size, scale)` pairs. -/
def SIZES : List (Nat × Nat) :=
  [(16, 1), (16, 2), (32, 1), (32, 2), (128, 1), (128, 2),
   (256, 1), (256, 2), (512, 1), (512, 2)]

/-- The `SVG_CONTENT` constant of the script (the inline icon definition). -/
def SVG_CONTENT : String := "<svg xmlns=\"http://www.w3.org/2000/svg\" viewBox=\"0 0 512 512\">\n  <defs>\n    <linearGradient id=\"bg\" x1=\"0%\" y1=\"0%\" x2=\"100%\" y2=\"100%\">\n      <stop offset=\"0%\" stop-color=\"#1a1a2e\"/>\n      <stop offset=\"100%\" stop-color=\"#16213e\"/>\n    </linearGradient>\n    <linearGradient id=\"shield\" x1=\"0%\" y1=\"0%\" x2=\"100%\" y2=\"100%\">\n      <stop offset=\"0%\" stop-color=\"#00d4ff\"/>\n      <stop offset=\"100%\" stop-color=\"#0099cc\"/>\n    </linearGradient>\n    <linearGradient id=\"key\" x1=\"0%\" y1=\"0%\" x2=\"100%\" y2=\"100%\">\n      <stop offset=\"0%\" stop-color=\"#ffd700\"/>\n      <stop offset=\"100%\" stop-color=\"#ffaa00\"/>\n    </linearGradient>\n  </defs>\n  <rect x=\"20\" y=\"20\" width=\"472\" height=\"472\" rx=\"90\" fill=\"url(#bg)\"/>\n  <path d=\"M256 80 L400 130 L400 280 C400 380 256 440 256 440 C256 440 112 380 112 280 L112 130 Z\" \n        fill=\"none\" stroke=\"url(#shield)\" stroke-width=\"20\" stroke-linejoin=\"round\"/>\n  <g transform=\"translate(256, 260) rotate(-45)\">\n    <circle cx=\"-60\" cy=\"0\" r=\"50\" fill=\"url(#key)\"/>\n    <circle cx=\"-60\" cy=\"0\" r=\"20\" fill=\"url(#bg)\"/>\n    <rect x=\"-20\" y=\"-12\" width=\"120\" height=\"24\" rx=\"8\" fill=\"url(#key)\"/>\n    <rect x=\"70\" y=\"-12\" width=\"12\" height=\"35\" rx=\"3\" fill=\"url(#key)\"/>\n    <rect x=\"90\" y=\"-12\" width=\"12\" height=\"25\" rx=\"3\" fill=\"url(#key)\"/>\n  </g>\n  <circle cx=\"256\" cy=\"160\" r=\"25\" fill=\"url(#shield)\"/>\n  <rect x=\"244\" y=\"155\" width=\"24\" height=\"20\" rx=\"3\" fill=\"url(#bg)\"/>\n  <path d=\"M250 155 L250 145 A12 12 0 0 1 262 145 L262 155\" fill=\"none\" stroke=\"url(#bg)\" stroke-width=\"4\"/>\n</svg>"

/-- The path the SVG source is written to (`svg_path` in `main`). -/
def svgPath : String := "/tmp/enclave_icon.svg"

/-- The f-string `f"icon_\x7bsize\x7dx\x7bsize\x7d@\x7bscale\x7dx.png"`. -/
def iconFilename (size scale : Nat) : String :=
  "icon_" ++ toString size ++ "x" ++ toString size ++ "@" ++ toString scale ++ "x.png"

/-- `os.path.join(ICON_DIR, filename)` for the PNG of one spec. -/
def filepathOf (size scale : Nat) : String :=
  ICON_DIR ++ "/" ++ iconFilename size scale

/-- A converter behaviour: the outcome of the (single) invocation attempt the
script makes for each spec. -/
def Converter : Type := (Nat × Nat) → ConvResult

/-- The `images` list built by the conversion loop: one `(filename, size,
scale)` triple appended per spec whose conversion returned exit status 0. -/
def images (conv : Converter) : List (String × Nat × Nat) :=
  SIZES.filterMap fun p =>
    if conv p = ConvResult.ok then some (iconFilename p.1 p.2, p.1, p.2) else none

/-- One record of the manifest's `"images"` list.  `filename` is `none` when
the record was appended by the missing-sizes loop (which omits the key). -/
structure ImageEntry where
  filename : Option String
  idiom : String
  scale : String
  size : String
deriving DecidableEq, Repr

/-- The f-string `f"\x7bscale\x7dx"` used for the `"scale"` field. -/
def fmtScale (scale : Nat) : String := toString scale ++ "x"

/-- The f-string `f"\x7bsize\x7dx\x7bsize\x7d"` used for the `"size"` field. -/
def fmtSize (size : Nat) : String := toString size ++ "x" ++ toString size

/-- The record appended for one element of `images` (first manifest loop). -/
def entryOfImage (t : String × Nat × Nat) : ImageEntry :=
  ⟨some t.1, "mac", fmtScale t.2.2, fmtSize t.2.1⟩

/-- The record appended for a spec absent from `existing` (second loop). -/
def missingEntry (p : Nat × Nat) : ImageEntry :=
  ⟨none, "mac", fmtScale p.2, fmtSize p.1⟩

/-- The record the first manifest loop produces for a successful spec `p`,
written directly in terms of `p`. -/
def producedEntry (p : Nat × Nat) : ImageEntry :=
  ⟨some (iconFilename p.1 p.2), "mac", fmtScale p.2, fmtSize p.1⟩

/-- The set `existing = \x7b(s, sc) for _, s, sc in images\x7d`, as a list. -/
def existing (conv : Converter) : List (Nat × Nat) :=
  (images conv).map fun t => (t.2.1, t.2.2)

/-- The manifest's `"images"` list: entries for produced specs (carrying a
filename), then entries for the specs missing from `existing`. -/
def contentsImages (conv : Converter) : List ImageEntry :=
  (images conv).map entryOfImage ++
    SIZES.filterMap fun p =>
      if (p.1, p.2) ∈ existing conv then none else some (missingEntry p)

/-- Serialization of one image record, as `json.dump(..., indent=2)` lays it
out at nesting depth two (keys in insertion order, `"filename"` first and
only when present). -/
def renderEntry (e : ImageEntry) : String :=
  "    \x7b\n" ++
    (match e.filename with
      | some fn => "      \"filename\": \"" ++ fn ++ "\",\n"
      | none => "") ++
    "      \"idiom\": \"" ++ e.idiom ++ "\",\n" ++
    "      \"scale\": \"" ++ e.scale ++ "\",\n" ++
    "      \"size\": \"" ++ e.size ++ "\"\n" ++
    "    \x7d"

/-- Serialization of the `"images"` list under `json.dump(..., indent=2)`. -/
def renderImages (es : List ImageEntry) : String :=
  match es with
  | [] => "[]"
  | _ => "[\n" ++ String.intercalate ",\n" (es.map renderEntry) ++ "\n  ]"

/-- The exact bytes `json.dump(contents, f, indent=2)` writes to
`Contents.json`: the `"images"` list followed by the fixed `"info"` block. -/
def renderContents (conv : Converter) : String :=
  "\x7b\n  \"images\": " ++ renderImages (contentsImages conv) ++
    ",\n  \"info\": \x7b\n    \"author\": \"xcode\",\n    \"version\": 1\n  \x7d\n\x7d"

/-- `os.path.join(ICON_DIR, "Contents.json")`. -/
def contentsPath : String := ICON_DIR ++ "/" ++ "Contents.json"

/-- One subprocess invocation of `rsvg-convert`: requested width and height,
`-o` output path, and input path. -/
structure ConvCall where
  width : Nat
  height : Nat
  outPath : String
  inPath : String
deriving DecidableEq, Repr

/-- An observable step of a run: a file write, a console message, a
`os.makedirs` call, or a converter invocation attempt. -/
inductive Effect
  | writeFile (path content : String)
  | message (msg : String)
  | makedirs (dir : String)
  | convert (call : ConvCall)
deriving DecidableEq, Repr

/-- The converter invocation the loop attempts for spec `p`: width and height
both `size * scale`, output `filepathOf`, input the SVG path. -/
def convCallFor (p : Nat × Nat) : ConvCall :=
  ⟨p.1 * p.2, p.1 * p.2, filepathOf p.1 p.2, svgPath⟩

/-- The success console message for one spec. -/
def generatedMsg (filename : String) : String := "Generated " ++ filename

/-- The diagnostic printed when a spec's conversion did not succeed. -/
def skippedMsg (filename : String) : String :=
  "Skipped " ++ filename ++ " - install librsvg: brew install librsvg"

/-- Observable steps of one iteration of the conversion loop: the invocation
attempt, then `Generated ...` on exit status 0, else the `Skipped ...`
diagnostic (printed both on non-zero exit and on `FileNotFoundError`). -/
def specEffects (conv : Converter) (p : Nat × Nat) : List Effect :=
  Effect.convert (convCallFor p) ::
    (if conv p = ConvResult.ok then
      [Effect.message (generatedMsg (iconFilename p.1 p.2))]
     else
      [Effect.message (skippedMsg (iconFilename p.1 p.2))])

/-- The ordered trace of `main`: write the SVG, announce it, create the
target directory, run the loop over all ten specs, then write the manifest
and announce it. -/
def mainTrace (conv : Converter) : List Effect :=
  [Effect.writeFile svgPath SVG_CONTENT,
   Effect.message ("Created SVG at " ++ svgPath),
   Effect.makedirs ICON_DIR] ++
    (SIZES.map (specEffects conv)).flatten ++
      [Effect.writeFile contentsPath (renderContents conv),
       Effect.message ("Updated " ++ contentsPath)]

/-- Whether a manifest record's `size` and `scale` fields are the ones the
script formats for spec `p`. -/
def matchesSpec (p : Nat × Nat) (e : ImageEntry) : Bool :=
  e.size == fmtSize p.1 && e.scale == fmtScale p.2

/-- The specs whose conversion succeeded, in the fixed order. -/
def producedSpecs (conv : Converter) : List (Nat × Nat) :=
  SIZES.filter fun p => decide (conv p = ConvResult.ok)

/-- The specs whose conversion did not succeed, in the fixed order. -/
def missingSpecs (conv : Converter) : List (Nat × Nat) :=
  SIZES.filter fun p => !(decide (conv p = ConvResult.ok))

/-- Converter that succeeds everywhere. -/
def convAllOk : Converter := fun _ => ConvResult.ok

/-- Converter behaviour when the tool is absent: every attempt raises
`FileNotFoundError`. -/
def convNotFound : Converter := fun _ => ConvResult.notFound

/-- Converter that fails (non-zero exit) exactly on the first spec. -/
def convFailFirst : Converter :=
  fun p => if p = (16, 1) then ConvResult.fail else ConvResult.ok

/-- Converter that fails (non-zero exit) exactly on `(512, 2)`. -/
def convFail512x2 : Converter :=
  fun p => if p = (512, 2) then ConvResult.fail else ConvResult.ok

/-- The ordering property claimed by the spec: the i-th record of the
manifest's `"images"` list describes the i-th spec of the fixed order. -/
def specOrderClaim (conv : Converter) : Prop :=
  (contentsImages conv).map (fun e => (e.size, e.scale)) =
    SIZES.map fun p => (fmtSize p.1, fmtScale p.2)

/-- Whether an observable step is a converter invocation attempt. -/
def isConvert : Effect → Bool
  | Effect.convert _ => true
  | _ => false

/-- Whether an observable step is the converter invocation `c`. -/
def convertPred (c : ConvCall) : Effect → Bool
  | Effect.convert d => d == c
  | _ => false

/-! ### Helper lemmas -/

theorem filterMap_ite_some {α β : Type} (p : α → Prop) [DecidablePred p]
    (f : α → β) (l : List α) :
    (l.filterMap fun a => if p a then some (f a) else none) =
      (l.filter fun a => decide (p a)).map f := by
  induction l with
  | nil => rfl
  | cons a l ih =>
    simp only [List.filterMap_cons, List.filter_cons]
    by_cases h : p a
    · simp only [if_pos h, decide_eq_true h, if_pos, List.map_cons, ih]
    · simp only [if_neg h, decide_eq_false h, Bool.false_eq_true, if_neg, ih,
        not_false_iff]

theorem filterMap_ite_none {α β : Type} (p : α → Prop) [DecidablePred p]
    (f : α → β) (l : List α) :
    (l.filterMap fun a => if p a then none else some (f a)) =
      (l.filter fun a => !(decide (p a))).map f := by
  induction l with
  | nil => rfl
  | cons a l ih =>
    simp only [List.filterMap_cons, List.filter_cons]
    by_cases h : p a
    · simp only [if_pos h, decide_eq_true h, Bool.not_true, Bool.false_eq_true,
        if_neg, ih, not_false_iff]
    · simp only [if_neg h, decide_eq_false h, Bool.not_false, if_pos,
        List.map_cons, ih]

theorem mem_existing {conv : Converter} {p : Nat × Nat} :
    p ∈ existing conv ↔ p ∈ SIZES ∧ conv p = ConvResult.ok := by
  constructor
  · intro h
    simp only [existing, List.mem_map, images, List.mem_filterMap] at h
    obtain ⟨t, ⟨q, hq, ht⟩, hpt⟩ := h
    by_cases hok : conv q = ConvResult.ok
    · rw [if_pos hok] at ht
      cases ht
      obtain rfl : q = p := hpt
      exact ⟨hq, hok⟩
    · rw [if_neg hok] at ht
      cases ht
  · rintro ⟨hp, hok⟩
    simp only [existing, List.mem_map, images, List.mem_filterMap]
    exact ⟨(iconFilename p.1 p.2, p.1, p.2), ⟨p, hp, by rw [if_pos hok]⟩, rfl⟩

theorem contentsImages_eq (conv : Converter) :
    contentsImages conv =
      (producedSpecs conv).map producedEntry ++
        (missingSpecs conv).map missingEntry := by
  unfold contentsImages producedSpecs missingSpecs
  congr 1
  · rw [images, filterMap_ite_some (fun p => conv p = ConvResult.ok)
      (fun p => (iconFilename p.1 p.2, p.1, p.2)) SIZES, List.map_map]
    rfl
  · have hcong : ∀ p ∈ SIZES,
        (if (p.1, p.2) ∈ existing conv then none else some (missingEntry p)) =
          (if conv p = ConvResult.ok then none else some (missingEntry p)) := by
      intro p hp
      by_cases hok : conv p = ConvResult.ok
      · rw [if_pos (mem_existing.mpr ⟨hp, hok⟩), if_pos hok]
      · rw [if_neg, if_neg hok]
        intro hmem
        exact hok (mem_existing.mp hmem).2
    rw [List.filterMap_congr hcong,
      filterMap_ite_none (fun p => conv p = ConvResult.ok) missingEntry SIZES]

theorem SIZES_nodup : SIZES.Nodup := by decide

theorem countP_key_SIZES :
    ∀ p ∈ SIZES, (SIZES.countP fun q => matchesSpec p (missingEntry q)) = 1 := by
  decide

theorem key_inj :
    ∀ p ∈ SIZES, ∀ q ∈ SIZES, matchesSpec p (missingEntry q) = true → q = p := by
  decide

theorem iconFilename_inj :
    ∀ p ∈ SIZES, ∀ q ∈ SIZES,
      iconFilename p.1 p.2 = iconFilename q.1 q.2 → p = q := by
  decide

theorem entry_exists (conv : Converter) {p : Nat × Nat} (hp : p ∈ SIZES) :
    ∃ e ∈ contentsImages conv, e.size = fmtSize p.1 ∧ e.scale = fmtScale p.2 := by
  rw [contentsImages_eq]
  by_cases hok : conv p = ConvResult.ok
  · refine ⟨producedEntry p, List.mem_append.mpr (Or.inl ?_), rfl, rfl⟩
    exact List.mem_map.mpr ⟨p, List.mem_filter.mpr ⟨hp, by simp [hok]⟩, rfl⟩
  · refine ⟨missingEntry p, List.mem_append.mpr (Or.inr ?_), rfl, rfl⟩
    exact List.mem_map.mpr ⟨p, List.mem_filter.mpr ⟨hp, by simp [hok]⟩, rfl⟩

theorem entry_filename_eq (conv : Converter) {p : Nat × Nat} (hp : p ∈ SIZES) :
    ∀ e ∈ contentsImages conv, e.size = fmtSize p.1 → e.scale = fmtScale p.2 →
      e.filename =
        if conv p = ConvResult.ok then some (iconFilename p.1 p.2) else none := by
  intro e he hsize hscale
  rw [contentsImages_eq] at he
  rcases List.mem_append.mp he with h | h
  · obtain ⟨q, hq, rfl⟩ := List.mem_map.mp h
    obtain ⟨hqs, hqok⟩ := List.mem_filter.mp hq
    have hkey : matchesSpec p (missingEntry q) = true := by
      simp only [matchesSpec, missingEntry]
      rw [show fmtSize q.1 = fmtSize p.1 from hsize,
        show fmtScale q.2 = fmtScale p.2 from hscale]
      simp
    obtain rfl : q = p := key_inj p hp q hqs hkey
    rw [if_pos (of_decide_eq_true hqok)]
    rfl
  · obtain ⟨q, hq, rfl⟩ := List.mem_map.mp h
    obtain ⟨hqs, hqok⟩ := List.mem_filter.mp hq
    have hkey : matchesSpec p (missingEntry q) = true := by
      simp only [matchesSpec, missingEntry]
      rw [show fmtSize q.1 = fmtSize p.1 from hsize,
        show fmtScale q.2 = fmtScale p.2 from hscale]
      simp
    obtain rfl : q = p := key_inj p hp q hqs hkey
    rw [if_neg (by simpa using hqok)]
    rfl

theorem countP_matchesSpec (conv : Converter) {p : Nat × Nat} (hp : p ∈ SIZES) :
    (contentsImages conv).countP (matchesSpec p) = 1 := by
  rw [contentsImages_eq, List.countP_append, List.countP_map, List.countP_map]
  rw [show (matchesSpec p ∘ producedEntry) =
      (fun q => matchesSpec p (missingEntry q)) from rfl]
  rw [show (matchesSpec p ∘ missingEntry) =
      (fun q => matchesSpec p (missingEntry q)) from rfl]
  have hperm :=
    (List.filter_append_perm (fun q => decide (conv q = ConvResult.ok)) SIZES).countP_eq
      (fun q => matchesSpec p (missingEntry q))
  rw [List.countP_append] at hperm
  rw [producedSpecs, missingSpecs]
  rw [hperm]
  exact countP_key_SIZES p hp

theorem length_contentsImages (conv : Converter) :
    (contentsImages conv).length = SIZES.length := by
  rw [contentsImages_eq, List.length_append, List.length_map, List.length_map]
  have hperm :=
    (List.filter_append_perm (fun q => decide (conv q = ConvResult.ok)) SIZES).length_eq
  rw [List.length_append] at hperm
  rw [producedSpecs, missingSpecs]
  exact hperm

theorem filterMap_some_comp {α β : Type} (f : α → β) (l : List α) :
    (l.filterMap fun a => some (f a)) = l.map f := by
  induction l with
  | nil => rfl
  | cons a l ih => simp [List.filterMap_cons, ih]

theorem filterMap_none_comp {α β : Type} (l : List α) :
    (l.filterMap fun _ => (none : Option β)) = [] := by
  induction l with
  | nil => rfl
  | cons a l ih => simp [List.filterMap_cons, ih]

theorem countP_specEffects (conv : Converter) (c : ConvCall) (q : Nat × Nat) :
    (specEffects conv q).countP (convertPred c) =
      if convCallFor q == c then 1 else 0 := by
  rw [specEffects]
  by_cases hq : conv q = ConvResult.ok
  · rw [if_pos hq]
    simp only [List.countP_cons, List.countP_nil, convertPred]
    simp
  · rw [if_neg hq]
    simp only [List.countP_cons, List.countP_nil, convertPred]
    simp

theorem countP_convert_trace (conv : Converter) (c : ConvCall) :
    (mainTrace conv).countP (convertPred c) =
      SIZES.countP fun p => convCallFor p == c := by
  have hflat : ∀ l : List (Nat × Nat),
      ((l.map (specEffects conv)).flatten).countP (convertPred c) =
        l.countP fun p => convCallFor p == c := by
    intro l
    induction l with
    | nil => rfl
    | cons q l ih =>
      rw [List.map_cons, List.flatten_cons, List.countP_append, ih,
        countP_specEffects, List.countP_cons, Nat.add_comm]
  rw [mainTrace, List.countP_append, List.countP_append, hflat]
  simp [List.countP_cons, convertPred]

theorem countP_convCallFor_SIZES :
    ∀ q ∈ SIZES, (SIZES.countP fun p => convCallFor p == convCallFor q) = 1 := by
  decide

/-! ### Claims -/

/-- C1: the spec claims that for every assignment of converter outcomes the
entries of the manifest's `images` list appear in the fixed SizeSpec order,
the i-th entry describing the i-th spec.  This is false: when the first spec
`(16, 1)` fails and the rest succeed, the produced entries come first and the
`(16, 1)` entry is appended last, so the first record describes `(16, 2)`. -/
theorem c1_counterexample : ¬ specOrderClaim convFailFirst := by
  unfold specOrderClaim
  decide

/-- C1 (amended): for every assignment of converter outcomes, the manifest's
`images` list is the produced specs in the fixed SizeSpec order followed by
the missing specs in the fixed SizeSpec order; the i-th entry describes the
i-th spec in the uniform cases (all produced, or all missing). -/
theorem c1_manifest_order (conv : Converter) :
    contentsImages conv =
      (producedSpecs conv).map producedEntry ++
        (missingSpecs conv).map missingEntry ∧
    specOrderClaim convAllOk ∧ specOrderClaim convNotFound :=
  ⟨contentsImages_eq conv, by unfold specOrderClaim; decide,
    by unfold specOrderClaim; decide⟩

/-- C2: for every assignment of converter outcomes the manifest's `images`
list has exactly one record per SizeSpec (ten in total); every record's
`size` and `scale` fields are the formatted strings of its spec, and the
record carries `filename` exactly for the produced specs (with `none`, i.e.
an omitted key, for the missing ones). -/
theorem c2_entries_partition (conv : Converter) :
    (contentsImages conv).length = SIZES.length ∧
    (∀ p ∈ SIZES, (contentsImages conv).countP (matchesSpec p) = 1) ∧
    (∀ e ∈ contentsImages conv, ∃ p ∈ SIZES,
      e.size = fmtSize p.1 ∧ e.scale = fmtScale p.2 ∧
      ((conv p = ConvResult.ok ∧ e.filename = some (iconFilename p.1 p.2)) ∨
        (conv p ≠ ConvResult.ok ∧ e.filename = none))) := by
  refine ⟨length_contentsImages conv, fun p hp => countP_matchesSpec conv hp, ?_⟩
  intro e he
  rw [contentsImages_eq] at he
  rcases List.mem_append.mp he with h | h
  · obtain ⟨q, hq, rfl⟩ := List.mem_map.mp h
    obtain ⟨hqs, hqok⟩ := List.mem_filter.mp hq
    exact ⟨q, hqs, rfl, rfl, Or.inl ⟨of_decide_eq_true hqok, rfl⟩⟩
  · obtain ⟨q, hq, rfl⟩ := List.mem_map.mp h
    obtain ⟨hqs, hqok⟩ := List.mem_filter.mp hq
    exact ⟨q, hqs, rfl, rfl, Or.inr ⟨by simpa using hqok, rfl⟩⟩

/-- Witness for C2 at a concrete input: with an everywhere-succeeding
converter the `(16, 1)` spec has exactly one record. -/
theorem c2_entries_partition_witness :
    (contentsImages convAllOk).countP (matchesSpec (16, 1)) = 1 :=
  (c2_entries_partition convAllOk).2.1 (16, 1) (by decide)

/-- C3: for every SizeSpec of the fixed ten, a record with that spec's
formatted `size` and `scale` exists in the manifest, and any such record
carries `filename = "icon_\x7bbase\x7dx\x7bbase\x7d@\x7bscale\x7dx.png"` when
the converter returned exit status 0 for that spec and no `filename`
otherwise. -/
theorem c3_filename_iff_success (conv : Converter) :
    ∀ p ∈ SIZES,
      (∃ e ∈ contentsImages conv, e.size = fmtSize p.1 ∧ e.scale = fmtScale p.2) ∧
      (∀ e ∈ contentsImages conv, e.size = fmtSize p.1 → e.scale = fmtScale p.2 →
        e.filename =
          if conv p = ConvResult.ok then some (iconFilename p.1 p.2) else none) :=
  fun _ hp => ⟨entry_exists conv hp, entry_filename_eq conv hp⟩

/-- Witness for C3 at a concrete input: with an everywhere-succeeding
converter there is a record for spec `(16, 1)`. -/
theorem c3_filename_iff_success_witness :
    ∃ e ∈ contentsImages convAllOk, e.size = fmtSize 16 ∧ e.scale = fmtScale 1 :=
  (c3_filename_iff_success convAllOk (16, 1) (by decide)).1

/-- C9 (implicit): for every assignment of converter outcomes the actual
ordering of the manifest's `images` list is all filename-carrying (produced)
records first, in the fixed SizeSpec order, followed by the records without
`filename` (missing), also in the fixed SizeSpec order. -/
theorem c9_produced_before_missing (conv : Converter) :
    contentsImages conv =
      (producedSpecs conv).map producedEntry ++
        (missingSpecs conv).map missingEntry ∧
    (∀ p : Nat × Nat, (producedEntry p).filename = some (iconFilename p.1 p.2)) ∧
    (∀ p : Nat × Nat, (missingEntry p).filename = none) :=
  ⟨contentsImages_eq conv, fun _ => rfl, fun _ => rfl⟩

set_option maxRecDepth 4000 in
/-- C4: when the tool is absent (every invocation attempt raises
`FileNotFoundError`) the run is not aborted: all ten invocation attempts
occur, the `Skipped ...` diagnostic is printed for every one of the ten
specs, the manifest is still written, and none of its ten records carries a
`filename`. -/
theorem c4_tool_missing_not_fatal :
    (∀ p ∈ SIZES, Effect.convert (convCallFor p) ∈ mainTrace convNotFound) ∧
    (∀ p ∈ SIZES,
      Effect.message (skippedMsg (iconFilename p.1 p.2)) ∈ mainTrace convNotFound) ∧
    Effect.writeFile contentsPath (renderContents convNotFound) ∈
      mainTrace convNotFound ∧
    ((contentsImages convNotFound).countP fun e => e.filename.isSome) = 0 ∧
    (contentsImages convNotFound).length = 10 := by
  decide

/-- C5: if the converter runs but exits non-zero for a spec, that spec's
record has no `filename`; every spec is still attempted exactly once (no
retry, processing continues), and the record of any spec is determined by
that spec's own outcome alone, so an earlier failure cannot change a later
entry. -/
theorem c5_failure_tolerated (conv : Converter) (p : Nat × Nat)
    (hp : p ∈ SIZES) (hfail : conv p = ConvResult.fail) :
    (∀ e ∈ contentsImages conv,
      e.size = fmtSize p.1 → e.scale = fmtScale p.2 → e.filename = none) ∧
    (∀ q ∈ SIZES, (mainTrace conv).countP (convertPred (convCallFor q)) = 1) ∧
    (∀ conv2 : Converter, ∀ q ∈ SIZES, conv2 q = conv q →
      ∀ e ∈ contentsImages conv, ∀ e2 ∈ contentsImages conv2,
        e.size = fmtSize q.1 → e.scale = fmtScale q.2 →
        e2.size = fmtSize q.1 → e2.scale = fmtScale q.2 →
        e.filename = e2.filename) := by
  refine ⟨?_, ?_, ?_⟩
  · intro e he hsize hscale
    rw [entry_filename_eq conv hp e he hsize hscale,
      if_neg (by simp [hfail])]
  · intro q hq
    rw [countP_convert_trace]
    exact countP_convCallFor_SIZES q hq
  · intro conv2 q hq hagree e he e2 he2 hsize hscale hsize2 hscale2
    rw [entry_filename_eq conv hq e he hsize hscale,
      entry_filename_eq conv2 hq e2 he2 hsize2 hscale2, hagree]

/-- Witness for C5 at a concrete input: when the converter fails only on
`(512, 2)`, every spec is still attempted exactly once. -/
theorem c5_failure_tolerated_witness :
    (mainTrace convFail512x2).countP (convertPred (convCallFor (16, 1))) = 1 :=
  (c5_failure_tolerated convFail512x2 (512, 2) (by decide) (by decide)).2.1
    (16, 1) (by decide)

/-- C6: for every spec, the trace of a run contains exactly one invocation of
the converter with width and height both `size * scale` and output path
`ICON_DIR/icon_\x7bsize\x7dx\x7bsize\x7d@\x7bscale\x7dx.png`, and the
`os.makedirs` of the target directory precedes every invocation. -/
theorem c6_one_invocation_per_spec (conv : Converter) (p : Nat × Nat)
    (hp : p ∈ SIZES) :
    (mainTrace conv).countP (convertPred (convCallFor p)) = 1 ∧
    (convCallFor p).width = p.1 * p.2 ∧
    (convCallFor p).height = p.1 * p.2 ∧
    (convCallFor p).outPath = ICON_DIR ++ "/" ++ iconFilename p.1 p.2 ∧
    (convCallFor p).inPath = svgPath ∧
    (∃ t1 t2, mainTrace conv = t1 ++ Effect.makedirs ICON_DIR :: t2 ∧
      ∀ eff ∈ t1, isConvert eff = false) := by
  refine ⟨?_, rfl, rfl, rfl, rfl, ?_⟩
  · rw [countP_convert_trace]
    exact countP_convCallFor_SIZES p hp
  · refine ⟨[Effect.writeFile svgPath SVG_CONTENT,
      Effect.message ("Created SVG at " ++ svgPath)],
      (SIZES.map (specEffects conv)).flatten ++
        [Effect.writeFile contentsPath (renderContents conv),
         Effect.message ("Updated " ++ contentsPath)], rfl, ?_⟩
    intro eff heff
    simp only [List.mem_cons, List.not_mem_nil, or_false] at heff
    rcases heff with rfl | rfl <;> rfl

/-- Witness for C6 at a concrete input: with an everywhere-succeeding
converter, spec `(16, 1)` is invoked exactly once. -/
theorem c6_one_invocation_per_spec_witness :
    (mainTrace convAllOk).countP (convertPred (convCallFor (16, 1))) = 1 :=
  (c6_one_invocation_per_spec convAllOk (16, 1) (by decide)).1

/-- C7: in the scenario where the converter succeeds everywhere except
`(512, 2)`, the manifest has exactly nine records carrying `filename`,
exactly one without, and that one has `size = "512x512"`, `scale = "2x"`. -/
theorem c7_only_512x2_missing :
    ((contentsImages convFail512x2).countP fun e => e.filename.isSome) = 9 ∧
    ((contentsImages convFail512x2).countP fun e => !e.filename.isSome) = 1 ∧
    (∀ e ∈ contentsImages convFail512x2, e.filename = none →
      e.size = "512x512" ∧ e.scale = "2x") := by
  decide

/-- C8: the serialized `Contents.json` bytes are a function of the per-spec
converter outcomes alone: two runs whose converters behave identically on
the ten fixed specs write byte-identical manifests. -/
theorem c8_deterministic (conv1 conv2 : Converter)
    (h : ∀ p ∈ SIZES, conv1 p = conv2 p) :
    renderContents conv1 = renderContents conv2 := by
  have himg : images conv1 = images conv2 :=
    List.filterMap_congr fun p hp => by rw [h p hp]
  have hex : existing conv1 = existing conv2 := by
    unfold existing
    rw [himg]
  have hci : contentsImages conv1 = contentsImages conv2 := by
    unfold contentsImages
    rw [himg, hex]
  unfold renderContents
  rw [hci]

/-- Witness for C8 at a concrete input: a converter succeeding everywhere
and one succeeding exactly on the ten fixed specs write the same bytes. -/
theorem c8_deterministic_witness :
    renderContents convAllOk =
      renderContents
        (fun p => if p ∈ SIZES then ConvResult.ok else ConvResult.fail) :=
  c8_deterministic _ _ (by decide)

/-- C10 (implicit): the filename map is injective on the ten fixed specs, so
the `filename` values of any manifest are pairwise distinct and the ten PNG
output paths handed to the converter are pairwise distinct. -/
theorem c10_filenames_injective :
    (∀ p ∈ SIZES, ∀ q ∈ SIZES,
      iconFilename p.1 p.2 = iconFilename q.1 q.2 → p = q) ∧
    (∀ conv : Converter,
      ((contentsImages conv).filterMap ImageEntry.filename).Nodup) ∧
    (SIZES.map fun p => filepathOf p.1 p.2).Nodup := by
  refine ⟨iconFilename_inj, ?_, by decide⟩
  intro conv
  rw [contentsImages_eq, List.filterMap_append, List.filterMap_map,
    List.filterMap_map]
  rw [show (ImageEntry.filename ∘ producedEntry) =
    (fun p : Nat × Nat => some (iconFilename p.1 p.2)) from rfl]
  rw [show (ImageEntry.filename ∘ missingEntry) =
    (fun _ : Nat × Nat => (none : Option String)) from rfl]
  rw [filterMap_some_comp, filterMap_none_comp, List.append_nil]
  unfold producedSpecs
  refine List.Nodup.map_on ?_ (SIZES_nodup.filter _)
  intro x hx y hy hf
  exact iconFilename_inj x (List.mem_filter.mp hx).1 y (List.mem_filter.mp hy).1 hf

/-- Witness for C10 at a concrete input: injectivity applied at `(16, 1)`. -/
theorem c10_filenames_injective_witness :
    ((16, 1) : Nat × Nat) = (16, 1) :=
  c10_filenames_injective.1 (16, 1) (by decide) (16, 1) (by decide) rfl

end GenerateIcon
